import Mathlib

/-!
Verification development for the CodeScope core pipeline.

The TypeScript sources are shallowly embedded here:
* strings are `List Char` (`Str`); JavaScript `includes` / `startsWith` /
  `endsWith` become `strIncludes` / `List.isPrefixOf` / `List.isSuffixOf`;
* JavaScript numbers are modelled as rationals (`ℚ`), keeping the exact
  arithmetic structure of the scoring formulas;
* the `Map` objects of the indexer are association lists with
  set / delete / lookup operations mirroring `Map.set` / `Map.delete` /
  `Map.get`;
* filesystem calls (`statSync`, `readFileSync`, `readdirSync`) and the
  declaration parser are explicit fallible parameters (`Option`-valued),
  and every `try`/`catch` of the source is modelled by the corresponding
  arm returning the caught-branch value.
-/

/-- Strings of the embedded program: JavaScript strings as lists of characters. -/
abbrev Str := List Char

/-- ElementType enum from src/types/index.ts. -/
inductive ElementType where
  | FUNCTION | CLASS | METHOD | PROPERTY | VARIABLE
  | INTERFACE | TYPE | ENUM | NAMESPACE
deriving DecidableEq, Repr

/-- QueryIntent enum from src/types/index.ts. -/
inductive QueryIntent where
  | FIND_FUNCTIONS | FIND_CLASSES | FIND_METHODS | FIND_VARIABLES
  | FIND_INTERFACES | FIND_TYPES | FIND_ALL
deriving DecidableEq, Repr

/-- Parameter interface from src/types/index.ts (fields used by the engine). -/
structure Parameter where
  name : Str
  type : Option Str := none
  optional : Option Bool := none
  defaultValue : Option Str := none
deriving DecidableEq, Repr

/-- CodeElement interface from src/types/index.ts.  Optional string fields are
`Option Str`; a JavaScript `undefined` and an empty string are distinguished,
and truthiness tests of the source are modelled explicitly where they occur. -/
structure CodeElement where
  name : Str
  type : ElementType
  signature : Option Str := none
  description : Option Str := none
  filePath : Str
  startLine : Nat := 1
  endLine : Nat := 1
  startColumn : Nat := 1
  endColumn : Nat := 1
  parameters : Option (List Parameter) := none
  returnType : Option Str := none
  modifiers : Option (List Str) := none
  context : Option Str := none
deriving DecidableEq, Repr

/-- SearchQuery interface from src/types/index.ts. -/
structure SearchQuery where
  text : Str
  intent : QueryIntent
  keywords : List Str
  elementTypes : List ElementType
  language : Option Str := none
deriving DecidableEq, Repr

/-- SearchResult interface from src/types/index.ts; scores are rationals. -/
structure SearchResult where
  element : CodeElement
  score : ℚ
  snippet : Str
  matchedKeywords : List Str
  relevanceReason : Str
deriving DecidableEq, Repr

/-- SearchOptions interface from src/types/index.ts.  All fields optional; the
defaults of `SearchEngine.search` are applied with `Option.getD` at use sites,
mirroring the destructuring defaults of the source. -/
structure SearchOptions where
  maxResults : Option Nat := none
  threshold : Option ℚ := none
  includeSnippets : Option Bool := none
  caseSensitive : Option Bool := none
  languages : Option (List Str) := none
  filePatterns : Option (List Str) := none
deriving Repr

/-- Helper for `dedupKeep`: drop every element already in `seen`, keep the
first occurrence of each new element. -/
def dedupKeepFrom [DecidableEq α] (seen : List α) : List α → List α
  | [] => []
  | x :: xs => if x ∈ seen then dedupKeepFrom seen xs else x :: dedupKeepFrom (x :: seen) xs

/-- JavaScript `[...new Set(xs)]`: deduplicate keeping first occurrences in
order (used for `query.keywords` in `calculateScore` and by `QueryParser`). -/
def dedupKeep [DecidableEq α] (l : List α) : List α :=
  dedupKeepFrom [] l

/-- All suffixes of a list, longest first, ending with `[]`. -/
def strSuffixes : Str → List Str
  | [] => [[]]
  | c :: t => (c :: t) :: strSuffixes t

/-- JavaScript `haystack.includes(needle)`: substring containment. -/
def strIncludes (haystack needle : Str) : Bool :=
  (strSuffixes haystack).any (fun s => needle.isPrefixOf s)

/-- Tokens of the little regular expressions the source builds with
`String.replace`: a literal character, `.` (any one character), `.*`
(any run of characters). -/
inductive RTok where
  | lit (c : Char)
  | anyChar
  | star
deriving DecidableEq, Repr

/-- Anchored matching of a token list against a whole string (the engine's
`new RegExp('^' + p + '$').test(s)`).  Recursion is structural on the
pattern: a star tries every suffix of the remaining text. -/
def matchFull : List RTok → Str → Bool
  | [], [] => true
  | [], _ :: _ => false
  | RTok.lit c :: ps, d :: ds => c = d && matchFull ps ds
  | RTok.anyChar :: ps, _ :: ds => matchFull ps ds
  | RTok.star :: ps, ds => (strSuffixes ds).any (fun s => matchFull ps s)
  | RTok.lit _ :: _, [] => false
  | RTok.anyChar :: _, [] => false

/-- Prefix-matching of a token list against a string: succeeds as soon as the
pattern is exhausted, so composing it over all suffixes gives the unanchored
`RegExp.test` used by the indexer's exclusion checks. -/
def matchPrefixToks : List RTok → Str → Bool
  | [], _ => true
  | RTok.lit c :: ps, d :: ds => c = d && matchPrefixToks ps ds
  | RTok.anyChar :: ps, _ :: ds => matchPrefixToks ps ds
  | RTok.star :: ps, ds => (strSuffixes ds).any (fun s => matchPrefixToks ps s)
  | RTok.lit _ :: _, [] => false
  | RTok.anyChar :: _, [] => false

/-- Unanchored `new RegExp(p).test(s)`: the pattern may match starting at any
position of the string. -/
def testUnanchored (pattern : List RTok) (s : Str) : Bool :=
  (strSuffixes s).any (fun suffix => matchPrefixToks pattern suffix)

/-- The indexer's exclusion checks build their regex with
`pattern.replace(/\*/g, '.*')` only, so `*` becomes an any-run wildcard
while a literal `.` stays a regex any-character token; all other characters
are literals (none of the built-in exclusion patterns contains further
regex metacharacters). -/
def compileJsPattern : Str → List RTok
  | [] => []
  | c :: rest =>
    (if c = '*' then RTok.star else if c = '.' then RTok.anyChar else RTok.lit c) ::
      compileJsPattern rest

namespace SearchEngine

/-- The `normalize` closure of `calculateScore` / `getMatchedKeywords`:
`caseSensitive ? text : text.toLowerCase()`. -/
def normalizeText (caseSensitive : Bool) (t : Str) : Str :=
  if caseSensitive then t else t.map Char.toLower

/-- getNameMatchScore, src/core/searchEngine.ts lines 143-149. -/
def getNameMatchScore (elementName : Str) (keyword : Str) : ℚ :=
  if elementName = keyword then 1.5
  else if keyword.isPrefixOf elementName then 1.2
  else if keyword.isSuffixOf elementName then 0.8
  else if strIncludes elementName keyword then 0.6
  else 0

/-- One iteration of the keyword loop of `calculateScore` (lines 87-106):
given the accumulated `(baseScore, matchedKeywordsCount)` and the
already-normalized element fields, process one keyword. -/
def scoreStep (caseSensitive : Bool) (elementName elementSignature elementDescription : Str)
    (acc : ℚ × Nat) (keyword : Str) : ℚ × Nat :=
  let normalizedKeyword := normalizeText caseSensitive keyword
  if strIncludes elementName normalizedKeyword then
    (acc.1 + 1.5 * getNameMatchScore elementName normalizedKeyword, acc.2 + 1)
  else if strIncludes elementSignature normalizedKeyword then
    (acc.1 + 0.6, acc.2 + 1)
  else if strIncludes elementDescription normalizedKeyword then
    (acc.1 + 0.3, acc.2 + 1)
  else acc

/-- calculateScore, src/core/searchEngine.ts lines 73-137.
`element.signature || ''` and `element.description || ''` collapse a missing
field to the empty string (`Option.getD`); an empty-string field behaves
identically under `||`. -/
def calculateScore (element : CodeElement) (query : SearchQuery) (caseSensitive : Bool) : ℚ :=
  let keywords := dedupKeep query.keywords
  if keywords = [] then 0
  else
    let elementName := normalizeText caseSensitive element.name
    let elementSignature := normalizeText caseSensitive (element.signature.getD [])
    let elementDescription := normalizeText caseSensitive (element.description.getD [])
    let folded := keywords.foldl (scoreStep caseSensitive elementName elementSignature elementDescription) (0, 0)
    let baseScore := folded.1
    let matchedKeywordsCount := folded.2
    if matchedKeywordsCount = 0 then 0
    else
      let completenessFactor : ℚ := (matchedKeywordsCount : ℚ) / (keywords.length : ℚ)
      if 1 < keywords.length ∧ completenessFactor < 0.5 then 0
      else
        let finalScore := baseScore * (completenessFactor * completenessFactor)
        let finalScore :=
          if query.intent = QueryIntent.FIND_FUNCTIONS ∧ element.type = ElementType.FUNCTION then
            finalScore + 0.2
          else if element.type ∈ query.elementTypes then
            finalScore + 0.1
          else finalScore
        let maxPossibleScore := (keywords.length : ℚ) * 1.5 * 1.5 + 0.2
        min (finalScore / maxPossibleScore) 1

/-- getMatchedKeywords, src/core/searchEngine.ts lines 156-176: case-normalized
substring search over name, description, signature and parameter names joined
with single spaces; iterates the raw (non-deduplicated) keyword list. -/
def getMatchedKeywords (element : CodeElement) (keywords : List Str) (caseSensitive : Bool) :
    List Str :=
  let searchableText :=
    List.intercalate " ".data
      ([element.name, element.description.getD [], element.signature.getD []] ++
        ((element.parameters.getD []).map (fun p => p.name)))
  let normalizedSearchable := normalizeText caseSensitive searchableText
  keywords.filter (fun keyword => strIncludes normalizedSearchable (normalizeText caseSensitive keyword))

/-- getRelevanceReason, src/core/searchEngine.ts lines 178-185. -/
def getRelevanceReason (query : SearchQuery) (matchedKeywords : List Str) : Str :=
  if matchedKeywords = [] then "General relevance match".data
  else
    "Matches ".data ++ (toString matchedKeywords.length).data ++ " of ".data ++
      (toString (dedupKeep query.keywords).length).data ++ " keywords: ".data ++
      List.intercalate ", ".data matchedKeywords

/-- generateSnippet, src/core/searchEngine.ts lines 187-197.  The JavaScript
truthiness test `if (element.description)` is false for both a missing and an
empty description; `element.signature || name` likewise falls back on an empty
signature. -/
def generateSnippet (element : CodeElement) : Str :=
  let descLines :=
    match element.description with
    | some d => if d = [] then [] else ["// ".data ++ d.takeWhile (fun c => c ≠ '\n')]
    | none => []
  let sigLine :=
    match element.signature with
    | some s => if s = [] then element.name else s
    | none => element.name
  List.intercalate ['\n'] (descLines ++ [sigLine])

/-- The pattern compilation of `matchesPattern` (src/core/searchEngine.ts
lines 199-207): `.` is escaped to a literal dot, `*` becomes `.*`, `?`
becomes `.`; all other characters are literals. -/
def compileSearchPattern : Str → List RTok
  | [] => []
  | c :: rest =>
    (if c = '*' then RTok.star else if c = '?' then RTok.anyChar else RTok.lit c) ::
      compileSearchPattern rest

/-- matchesPattern, src/core/searchEngine.ts lines 199-207: anchored
full-path glob match. -/
def matchesPattern (filePath : Str) (pattern : Str) : Bool :=
  matchFull (compileSearchPattern pattern) filePath

/-- The three candidate filters of `search` (src/core/searchEngine.ts lines
24-42): element types from the query, then language allow-list (matched as a
`.lang` file-path suffix), then file glob patterns. -/
def filterElements (elements : List CodeElement) (query : SearchQuery)
    (languages : List Str) (filePatterns : List Str) : List CodeElement :=
  let f1 :=
    if query.elementTypes ≠ [] then
      elements.filter (fun element => element.type ∈ query.elementTypes)
    else elements
  let f2 :=
    if languages ≠ [] then
      f1.filter (fun element =>
        languages.any (fun lang => ('.' :: lang).isSuffixOf element.filePath))
    else f1
  if filePatterns ≠ [] then
    f2.filter (fun element =>
      filePatterns.any (fun pattern => matchesPattern element.filePath pattern))
  else f2

/-- The result-collection loop of `search` (src/core/searchEngine.ts lines
44-62): score every filtered element and keep, in input order, those whose
score reaches the threshold, building the full SearchResult. -/
def searchCandidates (elements : List CodeElement) (query : SearchQuery)
    (options : SearchOptions) : List SearchResult :=
  let threshold := options.threshold.getD 0.2
  let includeSnippets := options.includeSnippets.getD true
  let caseSensitive := options.caseSensitive.getD false
  let filtered := filterElements elements query (options.languages.getD []) (options.filePatterns.getD [])
  filtered.filterMap (fun element =>
    let score := calculateScore element query caseSensitive
    if threshold ≤ score then
      let matchedKeywords := getMatchedKeywords element query.keywords caseSensitive
      some { element := element
             score := score
             snippet := if includeSnippets then generateSnippet element else []
             matchedKeywords := matchedKeywords
             relevanceReason := getRelevanceReason query matchedKeywords }
    else none)

/-- Stable insertion into a list sorted by descending score: the inserted
(later) result goes after every earlier result of greater-or-equal score.
Together with `sortByScoreDesc` this is the unique stable descending order
produced by `Array.prototype.sort((a, b) => b.score - a.score)`. -/
def insertDesc (r : SearchResult) : List SearchResult → List SearchResult
  | [] => [r]
  | x :: xs => if r.score < x.score then x :: insertDesc r xs else r :: x :: xs

/-- Stable sort by descending score (JavaScript `sort` is stable). -/
def sortByScoreDesc : List SearchResult → List SearchResult
  | [] => []
  | x :: xs => insertDesc x (sortByScoreDesc xs)

/-- search, src/core/searchEngine.ts lines 14-67: filter, score, keep results
at or above the threshold, sort by descending score (stably), truncate to
`maxResults` (default 50). -/
def search (elements : List CodeElement) (query : SearchQuery)
    (options : SearchOptions) : List SearchResult :=
  (sortByScoreDesc (searchCandidates elements query options)).take (options.maxResults.getD 50)

end SearchEngine

namespace QueryParser

/-- FUNCTION_KEYWORDS, src QueryParser lines 4-7. -/
def FUNCTION_KEYWORDS : List Str :=
  ["function", "functions", "method", "methods", "procedure", "procedures",
   "routine", "routines", "func", "def", "lambda"].map String.data

/-- CLASS_KEYWORDS, src QueryParser lines 9-12. -/
def CLASS_KEYWORDS : List Str :=
  ["class", "classes", "object", "objects", "type", "types",
   "struct", "structs", "interface", "interfaces"].map String.data

/-- VARIABLE_KEYWORDS, src QueryParser lines 14-17. -/
def VARIABLE_KEYWORDS : List Str :=
  ["variable", "variables", "var", "vars", "field", "fields",
   "property", "properties", "constant", "constants", "const"].map String.data

/-- ACTION_KEYWORDS, src QueryParser lines 19-32. -/
def ACTION_KEYWORDS : List Str :=
  ["handle", "handles", "handling", "process", "processes", "processing",
   "manage", "manages", "managing", "deal", "deals", "dealing",
   "send", "sends", "sending", "receive", "receives", "receiving",
   "create", "creates", "creating", "delete", "deletes", "deleting",
   "update", "updates", "updating", "get", "gets", "getting",
   "set", "sets", "setting", "validate", "validates", "validating",
   "authenticate", "authenticates", "authenticating", "authorize",
   "authorizes", "authorizing", "connect", "connects", "connecting",
   "parse", "parses", "parsing", "format", "formats", "formatting",
   "calculate", "calculates", "calculating", "compute", "computes",
   "computing", "render", "renders", "rendering", "display",
   "displays", "displaying", "show", "shows", "showing"].map String.data

/-- DOMAIN_KEYWORDS, src QueryParser lines 34-48. -/
def DOMAIN_KEYWORDS : List Str :=
  ["database", "db", "sql", "query", "queries", "table", "tables",
   "authentication", "auth", "login", "logout", "password", "token",
   "user", "users", "session", "sessions", "permission", "permissions",
   "email", "mail", "message", "messages", "notification", "notifications",
   "file", "files", "upload", "download", "storage", "cache", "caching",
   "api", "endpoint", "endpoints", "request", "requests", "response",
   "responses", "http", "https", "server", "client", "network",
   "validation", "validator", "error", "errors", "exception", "exceptions",
   "config", "configuration", "settings", "preferences", "options",
   "log", "logs", "logging", "debug", "debugging", "test", "tests",
   "testing", "mock", "mocks", "mocking", "util", "utils", "utility",
   "helper", "helpers", "service", "services", "controller", "controllers",
   "model", "models", "view", "views", "component", "components"].map String.data

/-- The stop-word list of `isStopWord`, src QueryParser lines 162-171. -/
def stopWords : List Str :=
  ["that", "with", "for", "and", "or", "in", "on", "at", "to", "from",
   "the", "a", "an", "is", "are", "was", "were", "be", "been", "being",
   "have", "has", "had", "do", "does", "did", "will", "would", "could",
   "should", "may", "might", "must", "can", "all", "any", "some", "this",
   "these", "those", "my", "your", "his", "her", "its", "our", "their"].map String.data

/-- isStopWord, src QueryParser lines 162-171. -/
def isStopWord (word : Str) : Bool :=
  word ∈ stopWords

/-- normalizeQuery, src QueryParser lines 66-68:
`query.toLowerCase().trim()`. -/
def normalizeQuery (query : Str) : Str :=
  let lowered := query.map Char.toLower
  ((lowered.dropWhile Char.isWhitespace).reverse.dropWhile Char.isWhitespace).reverse

/-- Helper for `tokenize`: scan the characters keeping the (reversed) current
word; a whitespace character closes the current word, the end of the input
flushes it.  This collects exactly the maximal non-whitespace runs. -/
def tokenizeAux (cur : Str) : Str → List Str
  | [] => if cur = [] then [] else [cur.reverse]
  | c :: cs =>
    if c.isWhitespace then
      if cur = [] then tokenizeAux [] cs else cur.reverse :: tokenizeAux [] cs
    else tokenizeAux (c :: cur) cs

/-- tokenize, src QueryParser lines 70-72: `query.split(/\s+/)` followed by
dropping empty pieces is the list of maximal non-whitespace runs. -/
def tokenize (query : Str) : List Str :=
  tokenizeAux [] query

/-- determineIntent, src QueryParser lines 74-103. -/
def determineIntent (words : List Str) : QueryIntent :=
  let hasFunction := words.any (fun word => word ∈ FUNCTION_KEYWORDS)
  let hasClass := words.any (fun word => word ∈ CLASS_KEYWORDS)
  let hasVariable := words.any (fun word => word ∈ VARIABLE_KEYWORDS)
  if hasFunction && !hasClass && !hasVariable then QueryIntent.FIND_FUNCTIONS
  else if hasClass && !hasFunction && !hasVariable then QueryIntent.FIND_CLASSES
  else if hasVariable && !hasFunction && !hasClass then QueryIntent.FIND_VARIABLES
  else if words.any (fun word => word = "interface".data ∨ word = "interfaces".data) then
    QueryIntent.FIND_INTERFACES
  else if words.any (fun word => word = "type".data ∨ word = "types".data) then
    QueryIntent.FIND_TYPES
  else QueryIntent.FIND_ALL

/-- extractElementTypes, src QueryParser lines 105-139.  The source takes the
token list as its first argument but never reads it; only the intent decides
the pushed element types. -/
def extractElementTypes (_words : List Str) (intent : QueryIntent) : List ElementType :=
  match intent with
  | QueryIntent.FIND_FUNCTIONS => [ElementType.FUNCTION, ElementType.METHOD]
  | QueryIntent.FIND_CLASSES => [ElementType.CLASS]
  | QueryIntent.FIND_VARIABLES => [ElementType.VARIABLE, ElementType.PROPERTY]
  | QueryIntent.FIND_INTERFACES => [ElementType.INTERFACE]
  | QueryIntent.FIND_TYPES => [ElementType.TYPE, ElementType.INTERFACE]
  | _ =>
    [ElementType.FUNCTION, ElementType.CLASS, ElementType.METHOD, ElementType.VARIABLE,
     ElementType.PROPERTY, ElementType.INTERFACE, ElementType.TYPE]

/-- extractKeywords, src QueryParser lines 141-160: for each token push it once
per satisfied rule (action vocabulary, domain vocabulary, not-a-category-word
and not a stop word), then deduplicate keeping first occurrences. -/
def extractKeywords (words : List Str) : List Str :=
  let keywords := words.foldl (fun acc word =>
    acc ++
      (if word ∈ ACTION_KEYWORDS then [word] else []) ++
      (if word ∈ DOMAIN_KEYWORDS then [word] else []) ++
      (if word ∉ FUNCTION_KEYWORDS ∧ word ∉ CLASS_KEYWORDS ∧ word ∉ VARIABLE_KEYWORDS ∧
          ¬ isStopWord word then [word] else [])) []
  dedupKeep keywords

/-- parse, src QueryParser lines 50-64. -/
def parse (queryText : Str) : SearchQuery :=
  let normalizedQuery := normalizeQuery queryText
  let words := tokenize normalizedQuery
  let intent := determineIntent words
  { text := queryText
    intent := intent
    keywords := extractKeywords words
    elementTypes := extractElementTypes words intent }

end QueryParser

/-- The per-path filesystem view used by `indexFile`: what `statSync` reports
(`mtime` in milliseconds and `size`) and what `readFileSync` returns.
`none` at the outer level models a path whose `statSync` throws; a `none`
`content` models a file whose `readFileSync` throws.  The view is fixed for
the duration of one call, so the second `statSync` inside
`calculateFileHash` agrees with the first. -/
structure FileView where
  mtime : Nat
  size : Nat
  content : Option Str
deriving DecidableEq, Repr

/-- The part of the parser result `indexFile` consumes (ParsedFile from
src/types/index.ts): detected language tag and extracted elements. -/
structure ParsedFile where
  language : Str
  elements : List CodeElement
deriving DecidableEq, Repr

/-- FileIndex interface from src/types/index.ts (lastModified is the stat
mtime in milliseconds). -/
structure FileIndex where
  filePath : Str
  language : Str
  elements : List CodeElement
  lastModified : Nat
  hash : Str
deriving DecidableEq, Repr

namespace CodeIndexer

/-- `Map.get(k)`: first value stored under the key. -/
def lookupA (l : List (Str × β)) (k : Str) : Option β :=
  match l with
  | [] => none
  | (k', v) :: rest => if k' = k then some v else lookupA rest k

/-- `Map.set(k, v)`: replace in place if the key is present (keeping its
position, as JavaScript Maps keep insertion order), else append. -/
def setA (l : List (Str × β)) (k : Str) (v : β) : List (Str × β) :=
  match l with
  | [] => [(k, v)]
  | (k', v') :: rest => if k' = k then (k, v) :: rest else (k', v') :: setA rest k v

/-- `Map.delete(k)`: drop the entry stored under the key. -/
def delA (l : List (Str × β)) (k : Str) : List (Str × β) :=
  match l with
  | [] => []
  | (k', v') :: rest => if k' = k then rest else (k', v') :: delA rest k

/-- WorkspaceIndex from src/types/index.ts: the `files` map and the derived
`elements` map.  The `lastUpdated : Date` field is a wall-clock timestamp
with no algorithmic role and is not modelled. -/
structure Index where
  files : List (Str × FileIndex)
  elements : List (Str × List CodeElement)
deriving DecidableEq, Repr

/-- The fresh index built by the constructor (src/utils/indexer.ts
lines 16-20). -/
def emptyIndex : Index := { files := [], elements := [] }

/-- IndexerConfig from src/types/index.ts. -/
structure IndexerConfig where
  maxFileSize : Nat
  excludePatterns : List Str
  includePatterns : List Str
  watchFiles : Bool
  cacheSize : Nat

/-- calculateFileHash, src/utils/indexer.ts lines 195-199:
`` `${stats.mtime.getTime()}-${content.length}` ``. -/
def hashString (mtime : Nat) (contentLength : Nat) : Str :=
  (toString mtime).data ++ '-' :: (toString contentLength).data

/-- indexFile, src/utils/indexer.ts lines 37-69.  The whole body sits in a
`try`/`catch` whose handler only logs, so every throwing path (statSync,
readFileSync inside calculateFileHash, parser rejection) returns with the
index unchanged.  The second component counts completed parser calls: the
fingerprint-equal branch returns before `parser.parseFile` is reached. -/
def indexFile (fs : Str → Option FileView) (parse : Str → Option ParsedFile)
    (cfg : IndexerConfig) (idx : Index) (filePath : Str) : Index × Nat :=
  match fs filePath with
  | none => (idx, 0)
  | some stats =>
    if cfg.maxFileSize < stats.size then (idx, 0)
    else
      match stats.content with
      | none => (idx, 0)
      | some content =>
        let fileHash := hashString stats.mtime content.length
        let parseAndStore : Unit → Index × Nat := fun _ =>
          match parse filePath with
          | none => (idx, 0)
          | some parsedFile =>
            ({ files := setA idx.files filePath
                 { filePath := filePath
                   language := parsedFile.language
                   elements := parsedFile.elements
                   lastModified := stats.mtime
                   hash := fileHash }
               elements := setA idx.elements filePath parsedFile.elements }, 1)
        match lookupA idx.files filePath with
        | some existingIndex =>
          if existingIndex.hash = fileHash then (idx, 0) else parseAndStore ()
        | none => parseAndStore ()

/-- removeFile, src/utils/indexer.ts lines 71-74. -/
def removeFile (idx : Index) (filePath : Str) : Index :=
  { files := delA idx.files filePath
    elements := delA idx.elements filePath }

/-- getAllElements, src/utils/indexer.ts lines 76-82: flatten the values of
the `elements` map in iteration order. -/
def getAllElements (idx : Index) : List CodeElement :=
  idx.elements.foldl (fun allElements pr => allElements ++ pr.2) []

/-- getElementsForFile, src/utils/indexer.ts lines 84-86. -/
def getElementsForFile (idx : Index) (filePath : Str) : List CodeElement :=
  (lookupA idx.elements filePath).getD []

/-- The statistics record returned by getStatistics (src/utils/indexer.ts
lines 96-117), without the unmodelled `lastUpdated` clock value. -/
structure Statistics where
  totalFiles : Nat
  totalElements : Nat
  elementsByLanguage : List (Str × Nat)

/-- `elementsByLanguage[lang] = (elementsByLanguage[lang] || 0) + count`. -/
def bumpLang (m : List (Str × Nat)) (lang : Str) (count : Nat) : List (Str × Nat) :=
  setA m lang ((lookupA m lang).getD 0 + count)

/-- getStatistics, src/utils/indexer.ts lines 96-117: fold over the `files`
map values accumulating the element total and the per-language breakdown. -/
def getStatistics (idx : Index) : Statistics :=
  let acc := idx.files.foldl
    (fun acc pr => (acc.1 + pr.2.elements.length, bumpLang acc.2 pr.2.language pr.2.elements.length))
    ((0 : Nat), ([] : List (Str × Nat)))
  { totalFiles := idx.files.length
    totalElements := acc.1
    elementsByLanguage := acc.2 }

end CodeIndexer

namespace CodeIndexer

/-- `path.basename`: the part of the path after the last `/`. -/
def basenameOf (p : Str) : Str :=
  (p.reverse.takeWhile (fun c => c ≠ '/')).reverse

/-- The suffix of a list starting at its last `.`, if any. -/
def lastDotSuffix : Str → Option Str
  | [] => none
  | c :: cs =>
    match lastDotSuffix cs with
    | some s => some s
    | none => if c = '.' then some (c :: cs) else none

/-- `path.extname(item).toLowerCase()`: the suffix of the basename from its
last `.`, empty when the only `.` is the leading character of a dotfile. -/
def extnameLower (item : Str) : Str :=
  let base := basenameOf item
  match base with
  | [] => []
  | _ :: rest =>
    match lastDotSuffix rest with
    | some s => s.map Char.toLower
    | none => []

/-- The fixed extension allow-list of findCodeFiles (src/utils/indexer.ts
line 121). -/
def supportedExtensions : List Str :=
  [".ts", ".tsx", ".js", ".jsx", ".py"].map String.data

/-- The built-in directory exclusions of shouldExcludeDirectory
(src/utils/indexer.ts lines 153-163). -/
def builtinDirExcludes : List Str :=
  ["node_modules", ".git", ".vscode", "dist", "build", "out", "coverage",
   ".nyc_output"].map String.data

/-- The built-in file exclusions of shouldExcludeFile (src/utils/indexer.ts
lines 176-184). -/
def builtinFileExcludes : List Str :=
  ["*.min.js", "*.d.ts", "*.test.ts", "*.spec.ts", "*.test.js",
   "*.spec.js"].map String.data

/-- shouldExcludeDirectory, src/utils/indexer.ts lines 151-172: a starred
pattern is tested as an unanchored regex against the full path; a plain
pattern matches when it equals the directory name or occurs anywhere in the
path. -/
def shouldExcludeDirectory (cfg : IndexerConfig) (dirPath : Str) : Bool :=
  let dirName := basenameOf dirPath
  (builtinDirExcludes ++ cfg.excludePatterns).any (fun pattern =>
    if '*' ∈ pattern then testUnanchored (compileJsPattern pattern) dirPath
    else dirName = pattern || strIncludes dirPath pattern)

/-- shouldExcludeFile, src/utils/indexer.ts lines 174-193: a starred pattern
is tested as an unanchored regex against the file name; a plain pattern must
equal the file name. -/
def shouldExcludeFile (cfg : IndexerConfig) (filePath : Str) : Bool :=
  let fileName := basenameOf filePath
  (builtinFileExcludes ++ cfg.excludePatterns).any (fun pattern =>
    if '*' ∈ pattern then testUnanchored (compileJsPattern pattern) fileName
    else fileName = pattern)

end CodeIndexer

mutual
/-- A node of the directory tree the traversal walks.  `statOk = false` means
`fs.statSync` on this entry's path throws; a `none` listing on a directory
means `fs.readdirSync` on it throws (a nonexistent or unreadable directory
behaves the same way). -/
inductive FsNode where
  | file (statOk : Bool)
  | dir (statOk : Bool) (listing : Option FsEntries)

/-- The ordered entries `fs.readdirSync` reports for a directory:
name / node pairs. -/
inductive FsEntries where
  | nil
  | cons (name : Str) (node : FsNode) (rest : FsEntries)
end

namespace CodeIndexer

/-- Whether `statSync` on this node's path succeeds. -/
def nodeStatOk : FsNode → Bool
  | FsNode.file ok => ok
  | FsNode.dir ok _ => ok

/-- `stats.isDirectory()`. -/
def nodeIsDir : FsNode → Bool
  | FsNode.file _ => false
  | FsNode.dir _ _ => true

mutual
/-- The `traverse` closure of findCodeFiles (src/utils/indexer.ts lines
123-145).  Its whole body — `readdirSync` plus the loop over the entries —
is wrapped in a `try`/`catch` that only logs, so a failing `readdirSync`
(including on the root itself) yields no files, and a failing `statSync` on
one entry abandons the remaining entries of that directory only. -/
def traverse (cfg : IndexerConfig) (dirPath : Str) (node : FsNode) : List Str :=
  match node with
  | FsNode.file _ => []
  | FsNode.dir _ none => []
  | FsNode.dir _ (some entries) => traverseEntries cfg dirPath entries

/-- The `for (const item of items)` loop inside `traverse`: directories are
descended unless excluded, files are collected when their lower-cased
extension is supported and they are not excluded; a throwing `statSync`
jumps to the enclosing catch, dropping the rest of this directory's items. -/
def traverseEntries (cfg : IndexerConfig) (dirPath : Str) (entries : FsEntries) : List Str :=
  match entries with
  | FsEntries.nil => []
  | FsEntries.cons name node rest =>
    let itemPath := dirPath ++ '/' :: name
    if nodeStatOk node then
      if nodeIsDir node then
        (if shouldExcludeDirectory cfg itemPath then []
         else traverse cfg itemPath node) ++ traverseEntries cfg dirPath rest
      else
        (if extnameLower name ∈ supportedExtensions ∧ ¬ shouldExcludeFile cfg itemPath
         then [itemPath] else []) ++ traverseEntries cfg dirPath rest
    else []
end

/-- findCodeFiles, src/utils/indexer.ts lines 119-149: run `traverse` from
the root and return the collected paths; every filesystem failure was
already absorbed inside `traverse`. -/
def findCodeFiles (cfg : IndexerConfig) (rootPath : Str) (root : FsNode) : List Str :=
  traverse cfg rootPath root

/-- indexWorkspace, src/utils/indexer.ts lines 23-35: discover files, then
`indexFile` each in order.  As an `async` function its rejection channel is
the `Except.error` case, but the body has no uncaught throw: `findCodeFiles`
absorbs all traversal failures (even for the root) and `indexFile` catches
its own.  The file-watcher setup and the `lastUpdated` timestamp are host /
clock effects outside the model. -/
def indexWorkspace (cfg : IndexerConfig) (rootPath : Str) (root : FsNode)
    (fs : Str → Option FileView) (parse : Str → Option ParsedFile)
    (idx : Index) : Except Str Index :=
  let files := findCodeFiles cfg rootPath root
  Except.ok (files.foldl (fun i p => (indexFile fs parse cfg i p).1) idx)

/-- One mutation of the index: an `indexFile` call (with the filesystem and
parser state in effect at that moment) or a `removeFile` call. -/
inductive IndexOp where
  | indexOp (fs : Str → Option FileView) (parse : Str → Option ParsedFile)
      (cfg : IndexerConfig) (filePath : Str)
  | removeOp (filePath : Str)

/-- Apply one `IndexOp` to the index. -/
def applyOp (idx : Index) : IndexOp → Index
  | IndexOp.indexOp fs parse cfg filePath => (indexFile fs parse cfg idx filePath).1
  | IndexOp.removeOp filePath => removeFile idx filePath

end CodeIndexer

namespace SearchEngine

/-- Per-keyword contribution to the base score, given the three normalized
fields in their priority order (the body of the keyword loop of
`calculateScore`, read as a value): `1.5 × nameMatchScore` for a name match,
else a flat `0.6` for a signature match, else a flat `0.3` for a description
match, else nothing. -/
def fieldContribution (caseSensitive : Bool) (nm sg ds : Str) (keyword : Str) : ℚ :=
  if strIncludes nm (normalizeText caseSensitive keyword) then
    1.5 * getNameMatchScore nm (normalizeText caseSensitive keyword)
  else if strIncludes sg (normalizeText caseSensitive keyword) then 0.6
  else if strIncludes ds (normalizeText caseSensitive keyword) then 0.3
  else 0

/-- Whether a keyword is found in at least one of the three fields (the
`keywordFound` flag of the loop). -/
def fieldMatches (caseSensitive : Bool) (nm sg ds : Str) (keyword : Str) : Bool :=
  strIncludes nm (normalizeText caseSensitive keyword) ||
    strIncludes sg (normalizeText caseSensitive keyword) ||
    strIncludes ds (normalizeText caseSensitive keyword)

/-- The normalized name of an element. -/
def elemName (caseSensitive : Bool) (element : CodeElement) : Str :=
  normalizeText caseSensitive element.name

/-- The normalized signature of an element (`element.signature || ''`). -/
def elemSig (caseSensitive : Bool) (element : CodeElement) : Str :=
  normalizeText caseSensitive (element.signature.getD [])

/-- The normalized description of an element (`element.description || ''`). -/
def elemDesc (caseSensitive : Bool) (element : CodeElement) : Str :=
  normalizeText caseSensitive (element.description.getD [])

/-- Whether one keyword matches an element in name, signature or description. -/
def keywordMatches (caseSensitive : Bool) (element : CodeElement) (keyword : Str) : Bool :=
  fieldMatches caseSensitive (elemName caseSensitive element) (elemSig caseSensitive element)
    (elemDesc caseSensitive element) keyword

/-- The number of deduplicated query keywords found in the element
(`matchedKeywordsCount` after the loop). -/
def matchedCount (element : CodeElement) (query : SearchQuery) (caseSensitive : Bool) : Nat :=
  (dedupKeep query.keywords).countP (keywordMatches caseSensitive element)

/-- The accumulated base score as a sum over the deduplicated keywords
(`baseScore` after the loop). -/
def baseScoreOf (element : CodeElement) (query : SearchQuery) (caseSensitive : Bool) : ℚ :=
  ((dedupKeep query.keywords).map (fieldContribution caseSensitive
    (elemName caseSensitive element) (elemSig caseSensitive element)
    (elemDesc caseSensitive element))).sum

/-- The element-type bonus of `calculateScore` (lines 128-132). -/
def intentBonus (query : SearchQuery) (element : CodeElement) : ℚ :=
  if query.intent = QueryIntent.FIND_FUNCTIONS ∧ element.type = ElementType.FUNCTION then 0.2
  else if element.type ∈ query.elementTypes then 0.1
  else 0

/-- Modelled from the claim's description of the score: base score times
completeness squared, plus the intent bonus, divided by
`keywordCount × 1.5 × 1.5 + 0.2`, clamped to at most 1 — with no
zero-match early return and no completeness cutoff.  This is the claim-side
formula to be compared against `calculateScore`. -/
def claimedScore (element : CodeElement) (query : SearchQuery) (caseSensitive : Bool) : ℚ :=
  min ((baseScoreOf element query caseSensitive *
         (((matchedCount element query caseSensitive : ℚ) /
             ((dedupKeep query.keywords).length : ℚ)) *
          ((matchedCount element query caseSensitive : ℚ) /
             ((dedupKeep query.keywords).length : ℚ))) +
        intentBonus query element) /
      (((dedupKeep query.keywords).length : ℚ) * 1.5 * 1.5 + 0.2)) 1

/-- Boolean test for an exact score value. -/
def scoreEq (s : ℚ) (r : SearchResult) : Bool :=
  decide (r.score = s)

end SearchEngine

/-- The synchronisation invariant of the WorkspaceIndex: the derived
`elements` map is exactly the `files` map with each record projected to its
Declaration list. -/
def CodeIndexer.SyncInv (idx : CodeIndexer.Index) : Prop :=
  idx.elements = idx.files.map (fun pr => (pr.1, pr.2.elements))

/-- A Declaration whose name matches only the first of the three requested
keywords (the 1-of-3 scenario of the spec). -/
def fixtureAA : CodeElement :=
  { name := "aa".data, type := ElementType.CLASS, filePath := "a.ts".data }

/-- A three-keyword structured query. -/
def fixtureQueryThree : SearchQuery :=
  { text := "aa bb cc".data, intent := QueryIntent.FIND_ALL,
    keywords := ["aa".data, "bb".data, "cc".data], elementTypes := [] }

/-- An element whose name matches no query keyword but which earns the
intent bonus (pure function asked for by a FIND_FUNCTIONS query). -/
def fixtureNoMatch : CodeElement :=
  { name := "a".data, type := ElementType.FUNCTION, filePath := "a.ts".data }

/-- A one-keyword FIND_FUNCTIONS query whose keyword the fixture does not
contain. -/
def fixtureQueryZ : SearchQuery :=
  { text := "z".data, intent := QueryIntent.FIND_FUNCTIONS,
    keywords := ["z".data], elementTypes := [] }

/-- A one-keyword query fully matched by an exact element name. -/
def fixtureSend : CodeElement :=
  { name := "send".data, type := ElementType.FUNCTION, filePath := "a.ts".data }

/-- The structured query with the single keyword `send`. -/
def fixtureQuerySend : SearchQuery :=
  { text := "send".data, intent := QueryIntent.FIND_ALL,
    keywords := ["send".data], elementTypes := [] }

/-- A structured query with an empty keyword list. -/
def fixtureEmptyQuery : SearchQuery :=
  { text := [], intent := QueryIntent.FIND_ALL, keywords := [], elementTypes := [] }

/-- The single result of searching the send fixture. -/
def fixtureResultSend : SearchResult :=
  { element := fixtureSend, score := 45/49, snippet := "send".data,
    matchedKeywords := ["send".data],
    relevanceReason := "Matches 1 of 1 keywords: send".data }

/-- The filesystem view of the unchanged-file fixture. -/
def fixtureView : FileView := { mtime := 5, size := 10, content := some "abc".data }

/-- A filesystem exposing exactly one readable file `a.ts`. -/
def fixtureFs : Str → Option FileView :=
  fun p => if p = "a.ts".data then some fixtureView else none

/-- A parser that succeeds with one element. -/
def fixtureParse : Str → Option ParsedFile :=
  fun _ => some { language := "typescript".data, elements := [fixtureSend] }

/-- The indexer configuration of the fixtures. -/
def fixtureCfg : CodeIndexer.IndexerConfig :=
  { maxFileSize := 1000, excludePatterns := [], includePatterns := [],
    watchFiles := false, cacheSize := 0 }

/-- The FileRecord stored for `a.ts` (fingerprint `5-3`). -/
def fixtureStored : FileIndex :=
  { filePath := "a.ts".data, language := "typescript".data, elements := [fixtureSend],
    lastModified := 5, hash := "5-3".data }

/-- An index already holding the record for `a.ts`. -/
def fixtureIdx : CodeIndexer.Index :=
  { files := [("a.ts".data, fixtureStored)], elements := [("a.ts".data, [fixtureSend])] }

/-- The filesystem view of a file whose `readFileSync` throws. -/
def fixtureViewUnreadable : FileView := { mtime := 5, size := 10, content := none }

/-- A filesystem exposing one stat-able but unreadable file `a.ts`. -/
def fixtureFsUnreadable : Str → Option FileView :=
  fun p => if p = "a.ts".data then some fixtureViewUnreadable else none

/-- The single-index-operation history of the witness. -/
def fixtureOps : List CodeIndexer.IndexOp :=
  [CodeIndexer.IndexOp.indexOp fixtureFs fixtureParse fixtureCfg "a.ts".data]

namespace SearchEngine

/-- The keyword loop of `calculateScore`, characterised: folding `scoreStep`
accumulates exactly the sum of the per-keyword contributions and the count
of matching keywords. -/
theorem foldl_scoreStep (caseSensitive : Bool) (nm sg ds : Str) :
    ∀ (l : List Str) (b : ℚ) (m : Nat),
      l.foldl (scoreStep caseSensitive nm sg ds) (b, m) =
        (b + (l.map (fieldContribution caseSensitive nm sg ds)).sum,
         m + l.countP (fieldMatches caseSensitive nm sg ds)) := by
  intro l
  induction l with
  | nil => intro b m; simp
  | cons k rest ih =>
    intro b m
    simp only [List.foldl_cons, List.map_cons, List.sum_cons, List.countP_cons]
    rw [ih]
    unfold scoreStep fieldContribution fieldMatches
    simp only []
    split
    · rename_i h1
      simp [h1]
      constructor
      · ring
      · omega
    · rename_i h1
      split
      · rename_i h2
        simp [h1, h2]
        constructor
        · ring
        · omega
      · rename_i h2
        split
        · rename_i h3
          simp [h1, h2, h3]
          constructor
          · ring
          · omega
        · rename_i h3
          simp [h1, h2, h3]

/-- `calculateScore`, restated over the loop-free quantities: the fold in the
definition is replaced by `baseScoreOf` and `matchedCount`. -/
theorem calculateScore_eq (element : CodeElement) (query : SearchQuery) (caseSensitive : Bool) :
    calculateScore element query caseSensitive =
      (if dedupKeep query.keywords = [] then 0
       else if matchedCount element query caseSensitive = 0 then 0
       else if 1 < (dedupKeep query.keywords).length ∧
           ((matchedCount element query caseSensitive : ℚ) /
             ((dedupKeep query.keywords).length : ℚ)) < 0.5 then 0
       else
         min ((baseScoreOf element query caseSensitive *
                (((matchedCount element query caseSensitive : ℚ) /
                    ((dedupKeep query.keywords).length : ℚ)) *
                  ((matchedCount element query caseSensitive : ℚ) /
                    ((dedupKeep query.keywords).length : ℚ))) +
               intentBonus query element) /
             (((dedupKeep query.keywords).length : ℚ) * 1.5 * 1.5 + 0.2)) 1) := by
  unfold calculateScore
  simp only [show normalizeText caseSensitive element.name = elemName caseSensitive element
        from rfl,
      show normalizeText caseSensitive (element.signature.getD []) =
        elemSig caseSensitive element from rfl,
      show normalizeText caseSensitive (element.description.getD []) =
        elemDesc caseSensitive element from rfl,
      foldl_scoreStep, zero_add, Nat.zero_add]
  simp only [show (dedupKeep query.keywords).countP
        (fieldMatches caseSensitive (elemName caseSensitive element)
          (elemSig caseSensitive element) (elemDesc caseSensitive element)) =
      matchedCount element query caseSensitive from rfl,
     show ((dedupKeep query.keywords).map
        (fieldContribution caseSensitive (elemName caseSensitive element)
          (elemSig caseSensitive element) (elemDesc caseSensitive element))).sum =
      baseScoreOf element query caseSensitive from rfl]
  unfold intentBonus
  split_ifs <;> first
    | rfl
    | (rw [add_zero])

end SearchEngine

namespace SearchEngine

/-- The per-name match score is never negative. -/
theorem getNameMatchScore_nonneg (nm k : Str) : 0 ≤ getNameMatchScore nm k := by
  unfold getNameMatchScore
  split_ifs <;> norm_num

/-- Per-keyword contributions are never negative. -/
theorem fieldContribution_nonneg (cs : Bool) (nm sg ds k : Str) :
    0 ≤ fieldContribution cs nm sg ds k := by
  unfold fieldContribution
  have h := getNameMatchScore_nonneg nm (normalizeText cs k)
  split_ifs
  · nlinarith
  · norm_num
  · norm_num
  · norm_num

/-- The accumulated base score is never negative. -/
theorem baseScoreOf_nonneg (element : CodeElement) (query : SearchQuery) (cs : Bool) :
    0 ≤ baseScoreOf element query cs := by
  unfold baseScoreOf
  apply List.sum_nonneg
  intro x hx
  rcases List.mem_map.mp hx with ⟨k, _, rfl⟩
  exact fieldContribution_nonneg ..

/-- The element-type bonus is never negative. -/
theorem intentBonus_nonneg (query : SearchQuery) (element : CodeElement) :
    0 ≤ intentBonus query element := by
  unfold intentBonus
  split_ifs <;> norm_num

end SearchEngine

/-- C3: for every Declaration, structured query and case-sensitivity flag, the
score computed by the ranking engine lies in the closed interval [0, 1]. -/
theorem c3_score_bounds (element : CodeElement) (query : SearchQuery) (caseSensitive : Bool) :
    0 ≤ SearchEngine.calculateScore element query caseSensitive ∧
    SearchEngine.calculateScore element query caseSensitive ≤ 1 := by
  rw [SearchEngine.calculateScore_eq]
  split_ifs with h1 h2 h3
  · norm_num
  · norm_num
  · norm_num
  · constructor
    · apply le_min _ (by norm_num)
      apply div_nonneg
      · have hb := SearchEngine.baseScoreOf_nonneg element query caseSensitive
        have hi := SearchEngine.intentBonus_nonneg query element
        have hc : (0 : ℚ) ≤ (SearchEngine.matchedCount element query caseSensitive : ℚ) /
            ((dedupKeep query.keywords).length : ℚ) := by positivity
        nlinarith
      · have hlen : 1 ≤ (dedupKeep query.keywords).length := by
          rcases Nat.eq_zero_or_pos (dedupKeep query.keywords).length with h | h
          · exact absurd (List.length_eq_zero.mp h) h1
          · exact h
        have : (1 : ℚ) ≤ ((dedupKeep query.keywords).length : ℚ) := by exact_mod_cast hlen
        nlinarith
    · exact min_le_right _ _

/-- C2: whenever the deduplicated keyword list has more than one keyword and
fewer than half of them are found in the Declaration's name, signature or
description, the computed score is exactly 0. -/
theorem c2_completeness_cutoff (element : CodeElement) (query : SearchQuery)
    (caseSensitive : Bool) (hlen : 1 < (dedupKeep query.keywords).length)
    (hhalf : 2 * SearchEngine.matchedCount element query caseSensitive <
      (dedupKeep query.keywords).length) :
    SearchEngine.calculateScore element query caseSensitive = 0 := by
  rw [SearchEngine.calculateScore_eq]
  have hne : dedupKeep query.keywords ≠ [] := by
    intro h
    rw [h] at hlen
    simp at hlen
  rw [if_neg hne]
  by_cases hm : SearchEngine.matchedCount element query caseSensitive = 0
  · rw [if_pos hm]
  · rw [if_neg hm, if_pos]
    refine ⟨hlen, ?_⟩
    have hlpos : (0 : ℚ) < ((dedupKeep query.keywords).length : ℚ) := by
      exact_mod_cast Nat.lt_trans Nat.zero_lt_one hlen
    rw [div_lt_iff₀ hlpos]
    have : (2 * SearchEngine.matchedCount element query caseSensitive : ℚ) <
        ((dedupKeep query.keywords).length : ℚ) := by exact_mod_cast hhalf
    nlinarith

/-- C2 witness: the cutoff theorem applied to the concrete 1-of-3 scenario. -/
theorem c2_completeness_cutoff_witness :
    1 < (dedupKeep fixtureQueryThree.keywords).length ∧
    2 * SearchEngine.matchedCount fixtureAA fixtureQueryThree false <
      (dedupKeep fixtureQueryThree.keywords).length ∧
    SearchEngine.calculateScore fixtureAA fixtureQueryThree false = 0 :=
  ⟨by decide, by decide,
   c2_completeness_cutoff fixtureAA fixtureQueryThree false (by decide) (by decide)⟩

/-- C1 (amended): the ranking formula of the claim — base score summed over
deduplicated keywords from the first matching field, times completeness
squared, plus the intent bonus, normalized by `keywordCount × 1.5 × 1.5 + 0.2`
and clamped at 1 — describes `calculateScore` exactly when at least one
keyword matched and, for multi-keyword queries, at least half of them
matched; outside those conditions the engine returns 0 instead. -/
theorem c1_score_formula (element : CodeElement) (query : SearchQuery) (caseSensitive : Bool)
    (hm : 1 ≤ SearchEngine.matchedCount element query caseSensitive)
    (hc : (dedupKeep query.keywords).length ≤ 1 ∨
      (1 : ℚ) / 2 ≤ (SearchEngine.matchedCount element query caseSensitive : ℚ) /
        ((dedupKeep query.keywords).length : ℚ)) :
    SearchEngine.calculateScore element query caseSensitive =
      SearchEngine.claimedScore element query caseSensitive := by
  rw [SearchEngine.calculateScore_eq]
  have hne : dedupKeep query.keywords ≠ [] := by
    intro h
    unfold SearchEngine.matchedCount at hm
    rw [h] at hm
    simp at hm
  have hm0 : SearchEngine.matchedCount element query caseSensitive ≠ 0 := by omega
  rw [if_neg hne, if_neg hm0, if_neg]
  · rfl
  · rintro ⟨hlen, hlt⟩
    rcases hc with h | h
    · omega
    · have : (0.5 : ℚ) = 1 / 2 := by norm_num
      rw [this] at hlt
      linarith

/-- C1 counterexample: with no matched keyword the engine returns 0, while
the claim's formula still pays out the intent bonus (0.2 / 2.45 = 4/49), so
the formula does not describe the score for every Declaration and query. -/
theorem c1_score_formula_counterexample :
    SearchEngine.calculateScore fixtureNoMatch fixtureQueryZ false = 0 ∧
    SearchEngine.claimedScore fixtureNoMatch fixtureQueryZ false = 4 / 49 ∧
    SearchEngine.calculateScore fixtureNoMatch fixtureQueryZ false ≠
      SearchEngine.claimedScore fixtureNoMatch fixtureQueryZ false := by
  have h1 : SearchEngine.calculateScore fixtureNoMatch fixtureQueryZ false = 0 := by
    rw [SearchEngine.calculateScore_eq]
    rw [if_neg (by decide : ¬ dedupKeep fixtureQueryZ.keywords = []),
        if_pos (by decide : SearchEngine.matchedCount fixtureNoMatch fixtureQueryZ false = 0)]
  have h2 : SearchEngine.claimedScore fixtureNoMatch fixtureQueryZ false = 4 / 49 := by
    unfold SearchEngine.claimedScore
    rw [show SearchEngine.matchedCount fixtureNoMatch fixtureQueryZ false = 0 from by decide,
        show SearchEngine.baseScoreOf fixtureNoMatch fixtureQueryZ false = 0 from by
          norm_num +decide [SearchEngine.baseScoreOf, SearchEngine.fieldContribution,
            dedupKeep, dedupKeepFrom, fixtureQueryZ],
        show SearchEngine.intentBonus fixtureQueryZ fixtureNoMatch = 0.2 from by
          norm_num [SearchEngine.intentBonus, fixtureQueryZ, fixtureNoMatch],
        show (dedupKeep fixtureQueryZ.keywords).length = 1 from by decide]
    norm_num
  refine ⟨h1, h2, ?_⟩
  rw [h1, h2]
  norm_num

/-- C1 witness: the amended formula theorem applied at a concrete fully
matching input. -/
theorem c1_score_formula_witness :
    1 ≤ SearchEngine.matchedCount fixtureSend fixtureQuerySend false ∧
    (dedupKeep fixtureQuerySend.keywords).length ≤ 1 ∧
    SearchEngine.calculateScore fixtureSend fixtureQuerySend false =
      SearchEngine.claimedScore fixtureSend fixtureQuerySend false :=
  ⟨by decide, by decide,
   c1_score_formula fixtureSend fixtureQuerySend false (by decide) (Or.inl (by decide))⟩

namespace QueryParser

/-- Lowercasing maps whitespace characters to themselves, hence keeps them
whitespace. -/
theorem isWhitespace_toLower {c : Char} (h : c.isWhitespace = true) :
    (Char.toLower c).isWhitespace = true := by
  simp only [Char.isWhitespace, Bool.or_eq_true, decide_eq_true_eq] at h
  rcases h with ((rfl | rfl) | rfl) | rfl <;> decide

/-- Every character of the trimmed, lowercased query comes from lowercasing a
character of the original query. -/
theorem mem_normalizeQuery {c : Char} {text : Str} (h : c ∈ normalizeQuery text) :
    ∃ c0 ∈ text, c = Char.toLower c0 := by
  unfold normalizeQuery at h
  rw [List.mem_reverse] at h
  have h2 := (List.dropWhile_sublist _).mem h
  rw [List.mem_reverse] at h2
  have h3 := (List.dropWhile_sublist _).mem h2
  rcases List.mem_map.mp h3 with ⟨c0, hc0, rfl⟩
  exact ⟨c0, hc0, rfl⟩

/-- Tokenizing an all-whitespace string yields no tokens. -/
theorem tokenizeAux_all_whitespace {l : Str} (h : ∀ c ∈ l, c.isWhitespace = true) :
    tokenizeAux [] l = [] := by
  induction l with
  | nil => rfl
  | cons c cs ih =>
    unfold tokenizeAux
    rw [if_pos (h c (List.mem_cons_self c cs))]
    simp only [if_pos rfl]
    exact ih (fun d hd => h d (List.mem_cons_of_mem c hd))

/-- Parsing an all-whitespace (or empty) query yields no words. -/
theorem tokenize_normalize_all_whitespace {text : Str}
    (h : ∀ c ∈ text, c.isWhitespace = true) :
    tokenize (normalizeQuery text) = [] := by
  apply tokenizeAux_all_whitespace
  intro c hc
  rcases mem_normalizeQuery hc with ⟨c0, hc0, rfl⟩
  exact isWhitespace_toLower (h c0 hc0)

end QueryParser

/-- C5: the flagship query parses to intent FIND_FUNCTIONS with target kinds
function and method and keywords containing `send` and `email`; and each
intent maps deterministically to its target kind list regardless of the
token list. -/
theorem c5_intent_mapping :
    (QueryParser.parse "functions that send email".data).intent = QueryIntent.FIND_FUNCTIONS ∧
    (QueryParser.parse "functions that send email".data).elementTypes =
      [ElementType.FUNCTION, ElementType.METHOD] ∧
    "send".data ∈ (QueryParser.parse "functions that send email".data).keywords ∧
    "email".data ∈ (QueryParser.parse "functions that send email".data).keywords ∧
    (∀ tokens, QueryParser.extractElementTypes tokens QueryIntent.FIND_FUNCTIONS =
      [ElementType.FUNCTION, ElementType.METHOD]) ∧
    (∀ tokens, QueryParser.extractElementTypes tokens QueryIntent.FIND_CLASSES =
      [ElementType.CLASS]) ∧
    (∀ tokens, QueryParser.extractElementTypes tokens QueryIntent.FIND_VARIABLES =
      [ElementType.VARIABLE, ElementType.PROPERTY]) ∧
    (∀ tokens, QueryParser.extractElementTypes tokens QueryIntent.FIND_INTERFACES =
      [ElementType.INTERFACE]) ∧
    (∀ tokens, QueryParser.extractElementTypes tokens QueryIntent.FIND_TYPES =
      [ElementType.TYPE, ElementType.INTERFACE]) ∧
    (∀ tokens, QueryParser.extractElementTypes tokens QueryIntent.FIND_ALL =
      [ElementType.FUNCTION, ElementType.CLASS, ElementType.METHOD, ElementType.VARIABLE,
       ElementType.PROPERTY, ElementType.INTERFACE, ElementType.TYPE]) :=
  ⟨by decide, by decide, by decide, by decide,
   fun _ => rfl, fun _ => rfl, fun _ => rfl, fun _ => rfl, fun _ => rfl, fun _ => rfl⟩

/-- C6: a whitespace-only (or empty) query text parses to an empty keyword
list with intent FIND_ALL; an empty keyword list scores 0 on every
Declaration; and a search with an empty keyword list and a positive score
threshold returns no results. -/
theorem c6_empty_query_safe :
    (∀ text : Str, (∀ c ∈ text, c.isWhitespace = true) →
      (QueryParser.parse text).keywords = [] ∧
      (QueryParser.parse text).intent = QueryIntent.FIND_ALL) ∧
    (∀ (element : CodeElement) (query : SearchQuery) (caseSensitive : Bool),
      query.keywords = [] →
      SearchEngine.calculateScore element query caseSensitive = 0) ∧
    (∀ (elements : List CodeElement) (query : SearchQuery) (options : SearchOptions),
      query.keywords = [] → 0 < options.threshold.getD 0.2 →
      SearchEngine.search elements query options = []) := by
  have score0 : ∀ (element : CodeElement) (query : SearchQuery) (caseSensitive : Bool),
      query.keywords = [] →
      SearchEngine.calculateScore element query caseSensitive = 0 := by
    intro element query caseSensitive h
    rw [SearchEngine.calculateScore_eq, if_pos]
    rw [h]
    rfl
  refine ⟨?_, score0, ?_⟩
  · intro text h
    have hw := QueryParser.tokenize_normalize_all_whitespace h
    unfold QueryParser.parse
    simp only [hw]
    exact ⟨rfl, rfl⟩
  · intro elements query options hkw hthr
    unfold SearchEngine.search
    have hcand : SearchEngine.searchCandidates elements query options = [] := by
      unfold SearchEngine.searchCandidates
      rw [List.filterMap_eq_nil_iff]
      intro element _
      rw [score0 element query (options.caseSensitive.getD false) hkw, if_neg]
      exact fun hle => absurd (lt_of_lt_of_le hthr hle) (lt_irrefl 0)
    rw [hcand]
    simp [SearchEngine.sortByScoreDesc]

/-- C6 witness: the safety theorem applied to the one-space query text, to a
concrete element/query, and to a concrete search with default options. -/
theorem c6_empty_query_safe_witness :
    (QueryParser.parse " ".data).keywords = [] ∧
    (QueryParser.parse " ".data).intent = QueryIntent.FIND_ALL ∧
    SearchEngine.calculateScore fixtureSend fixtureEmptyQuery false = 0 ∧
    SearchEngine.search [fixtureSend] fixtureEmptyQuery {} = [] := by
  refine ⟨(c6_empty_query_safe.1 " ".data ?_).1, (c6_empty_query_safe.1 " ".data ?_).2,
    c6_empty_query_safe.2.1 fixtureSend fixtureEmptyQuery false rfl,
    c6_empty_query_safe.2.2 [fixtureSend] fixtureEmptyQuery {} rfl (by norm_num)⟩
  · decide
  · decide

namespace SearchEngine

/-- Inserting into the sorted list is a permutation of consing. -/
theorem insertDesc_perm (r : SearchResult) (l : List SearchResult) :
    List.Perm (insertDesc r l) (r :: l) := by
  induction l with
  | nil => exact List.Perm.refl _
  | cons x xs ih =>
    unfold insertDesc
    split
    · exact ((ih.cons x).trans (List.Perm.swap r x xs))
    · exact List.Perm.refl _

/-- The stable sort permutes its input. -/
theorem sortByScoreDesc_perm (l : List SearchResult) :
    List.Perm (sortByScoreDesc l) l := by
  induction l with
  | nil => exact List.Perm.refl _
  | cons x xs ih => exact (insertDesc_perm x (sortByScoreDesc xs)).trans (ih.cons x)

/-- Membership in the sorted list is membership in the input. -/
theorem mem_sortByScoreDesc {r : SearchResult} {l : List SearchResult} :
    r ∈ sortByScoreDesc l ↔ r ∈ l :=
  (sortByScoreDesc_perm l).mem_iff

/-- Insertion preserves the descending-score pairwise order. -/
theorem pairwise_insertDesc (r : SearchResult) {l : List SearchResult}
    (h : List.Pairwise (fun a b => b.score ≤ a.score) l) :
    List.Pairwise (fun a b => b.score ≤ a.score) (insertDesc r l) := by
  induction l with
  | nil => simp [insertDesc]
  | cons x xs ih =>
    rcases List.pairwise_cons.mp h with ⟨hx, hxs⟩
    unfold insertDesc
    split
    · rename_i hlt
      refine List.pairwise_cons.mpr ⟨?_, ih hxs⟩
      intro y hy
      rcases List.mem_cons.mp ((insertDesc_perm r xs).mem_iff.mp hy) with rfl | hy'
      · exact le_of_lt hlt
      · exact hx y hy'
    · rename_i hge
      refine List.pairwise_cons.mpr ⟨?_, h⟩
      intro y hy
      rcases List.mem_cons.mp hy with rfl | hy'
      · exact le_of_not_lt hge
      · exact le_trans (hx y hy') (le_of_not_lt hge)

/-- The stable sort produces a descending-score list. -/
theorem sortByScoreDesc_sorted (l : List SearchResult) :
    List.Pairwise (fun a b => b.score ≤ a.score) (sortByScoreDesc l) := by
  induction l with
  | nil => simp [sortByScoreDesc]
  | cons x xs ih => exact pairwise_insertDesc x ih

/-- Inserting a result either prepends it to the same-score slice (it goes in
front of every equal-score result already present is false — it goes after
them; but every result it passes over has a strictly greater score, so the
same-score slice is otherwise untouched). -/
theorem filter_insertDesc (s : ℚ) (r : SearchResult) (l : List SearchResult) :
    (insertDesc r l).filter (scoreEq s) =
      if scoreEq s r then r :: l.filter (scoreEq s) else l.filter (scoreEq s) := by
  induction l with
  | nil =>
    by_cases h : scoreEq s r = true
    · simp [insertDesc, List.filter, h]
    · simp only [Bool.not_eq_true] at h
      simp [insertDesc, List.filter, h]
  | cons x xs ih =>
    unfold insertDesc
    split
    · rename_i hlt
      by_cases hr : scoreEq s r = true
      · have hx : scoreEq s x = false := by
          have hrs : r.score = s := of_decide_eq_true hr
          apply decide_eq_false
          intro hxs
          rw [hxs] at hlt
          exact absurd (hrs ▸ hlt) (lt_irrefl s)
        simp [List.filter_cons, hx, ih, hr]
      · simp only [Bool.not_eq_true] at hr
        simp [List.filter_cons, ih, hr]
    · by_cases hr : scoreEq s r = true
      · simp [List.filter_cons, hr]
      · simp only [Bool.not_eq_true] at hr
        simp [List.filter_cons, hr]

/-- Stability: sorting does not change the relative order of results with any
given score. -/
theorem filter_sortByScoreDesc (s : ℚ) (l : List SearchResult) :
    (sortByScoreDesc l).filter (scoreEq s) = l.filter (scoreEq s) := by
  induction l with
  | nil => rfl
  | cons x xs ih =>
    unfold sortByScoreDesc
    rw [filter_insertDesc]
    by_cases hx : scoreEq s x = true
    · simp [hx, ih, List.filter_cons]
    · simp only [Bool.not_eq_true] at hx
      simp [hx, ih, List.filter_cons]

/-- Every kept candidate scores at least the (defaulted) threshold. -/
theorem mem_searchCandidates_score {elements : List CodeElement} {query : SearchQuery}
    {options : SearchOptions} {r : SearchResult}
    (h : r ∈ searchCandidates elements query options) :
    options.threshold.getD 0.2 ≤ r.score := by
  unfold searchCandidates at h
  rcases List.mem_filterMap.mp h with ⟨element, _, hf⟩
  by_cases hle : options.threshold.getD 0.2 ≤
      calculateScore element query (options.caseSensitive.getD false)
  · rw [if_pos hle] at hf
    cases hf
    exact hle
  · rw [if_neg hle] at hf
    cases hf

end SearchEngine

/-- C4: `search` keeps only results at or above the (defaulted) threshold,
orders them by descending score, keeps equal-score results in candidate
(input) order, and returns at most `maxResults` (default 50) results. -/
theorem c4_search_contract (elements : List CodeElement) (query : SearchQuery)
    (options : SearchOptions) :
    (∀ r ∈ SearchEngine.search elements query options,
      options.threshold.getD 0.2 ≤ r.score) ∧
    List.Pairwise (fun a b => b.score ≤ a.score)
      (SearchEngine.search elements query options) ∧
    (∀ s : ℚ, (SearchEngine.search elements query options).filter (SearchEngine.scoreEq s) <+:
      (SearchEngine.searchCandidates elements query options).filter (SearchEngine.scoreEq s)) ∧
    (SearchEngine.search elements query options).length ≤ options.maxResults.getD 50 := by
  refine ⟨?_, ?_, ?_, ?_⟩
  · intro r hr
    unfold SearchEngine.search at hr
    have h1 : r ∈ SearchEngine.sortByScoreDesc
        (SearchEngine.searchCandidates elements query options) :=
      (List.take_sublist _ _).mem hr
    exact SearchEngine.mem_searchCandidates_score (SearchEngine.mem_sortByScoreDesc.mp h1)
  · unfold SearchEngine.search
    exact (SearchEngine.sortByScoreDesc_sorted _).sublist (List.take_sublist _ _)
  · intro s
    unfold SearchEngine.search
    have h := List.IsPrefix.filter (SearchEngine.scoreEq s)
      (List.take_prefix (options.maxResults.getD 50)
        (SearchEngine.sortByScoreDesc (SearchEngine.searchCandidates elements query options)))
    rwa [SearchEngine.filter_sortByScoreDesc] at h
  · unfold SearchEngine.search
    exact List.length_take_le _ _

/-- The exact score of the send fixture under its one-keyword query. -/
theorem fixtureSend_score :
    SearchEngine.calculateScore fixtureSend fixtureQuerySend false = 45/49 := by
  norm_num +decide [SearchEngine.calculateScore, SearchEngine.scoreStep, SearchEngine.normalizeText,
    SearchEngine.getNameMatchScore, dedupKeep, dedupKeepFrom, strIncludes, strSuffixes,
    List.isPrefixOf, fixtureSend, fixtureQuerySend]

/-- Searching the one-element fixture workspace returns exactly the expected
result. -/
theorem search_fixture :
    SearchEngine.search [fixtureSend] fixtureQuerySend {} = [fixtureResultSend] := by
  unfold SearchEngine.search SearchEngine.searchCandidates SearchEngine.filterElements
  simp only [eq_false (by decide : ¬ (fixtureQuerySend.elementTypes ≠ [])),
             eq_false (by decide : ¬ ((({} : SearchOptions)).languages.getD [] ≠ [])),
             eq_false (by decide : ¬ ((({} : SearchOptions)).filePatterns.getD [] ≠ [])),
             if_false,
             show (({} : SearchOptions)).caseSensitive.getD false = false from rfl,
             show (({} : SearchOptions)).threshold.getD 0.2 = 0.2 from rfl,
             show (({} : SearchOptions)).includeSnippets.getD true = true from rfl,
             show (({} : SearchOptions)).maxResults.getD 50 = 50 from rfl,
             List.filterMap_cons, List.filterMap_nil]
  rw [fixtureSend_score]
  rw [if_pos (by norm_num : (0.2 : ℚ) ≤ 45 / 49)]
  simp only [SearchEngine.sortByScoreDesc, SearchEngine.insertDesc, List.take_succ_cons,
    List.take_nil]
  refine List.cons_eq_cons.mpr ?_
  refine ⟨?_, rfl⟩
  show ({ element := fixtureSend, score := 45 / 49,
          snippet := if true = true then SearchEngine.generateSnippet fixtureSend else [],
          matchedKeywords := SearchEngine.getMatchedKeywords fixtureSend fixtureQuerySend.keywords false,
          relevanceReason := SearchEngine.getRelevanceReason fixtureQuerySend
            (SearchEngine.getMatchedKeywords fixtureSend fixtureQuerySend.keywords false) } : SearchResult)
      = fixtureResultSend
  have h1 : SearchEngine.generateSnippet fixtureSend = "send".data := by decide
  have h2 : SearchEngine.getMatchedKeywords fixtureSend fixtureQuerySend.keywords false =
      ["send".data] := by decide
  have h3 : SearchEngine.getRelevanceReason fixtureQuerySend (["send".data]) =
      "Matches 1 of 1 keywords: send".data := by decide
  rw [if_pos rfl, h1, h2, h3]
  rfl

/-- C4 witness: the search contract applied to the concrete one-element
workspace, discharging the membership and score-slice hypotheses at the
computed result. -/
theorem c4_search_contract_witness :
    ({} : SearchOptions).threshold.getD 0.2 ≤ fixtureResultSend.score ∧
    List.Pairwise (fun a b => b.score ≤ a.score)
      (SearchEngine.search [fixtureSend] fixtureQuerySend {}) ∧
    ((SearchEngine.search [fixtureSend] fixtureQuerySend {}).filter
        (SearchEngine.scoreEq (45 / 49)) <+:
      (SearchEngine.searchCandidates [fixtureSend] fixtureQuerySend {}).filter
        (SearchEngine.scoreEq (45 / 49))) ∧
    (SearchEngine.search [fixtureSend] fixtureQuerySend {}).length ≤
      ({} : SearchOptions).maxResults.getD 50 := by
  have h := c4_search_contract [fixtureSend] fixtureQuerySend {}
  refine ⟨h.1 fixtureResultSend ?_, h.2.1, h.2.2.1 (45 / 49), h.2.2.2⟩
  rw [search_fixture]
  exact List.mem_cons_self _ _

/-- C7: when the stored fingerprint for a path equals the file's current
fingerprint, `indexFile` performs no parse and leaves the whole index — in
particular that path's FileRecord and Declaration list — unchanged. -/
theorem c7_unchanged_file_skips_parse (fs : Str → Option FileView)
    (parse : Str → Option ParsedFile) (cfg : CodeIndexer.IndexerConfig)
    (idx : CodeIndexer.Index) (filePath : Str) (stats : FileView) (content : Str)
    (stored : FileIndex)
    (hstat : fs filePath = some stats)
    (hread : stats.content = some content)
    (hstored : CodeIndexer.lookupA idx.files filePath = some stored)
    (hhash : stored.hash = CodeIndexer.hashString stats.mtime content.length) :
    CodeIndexer.indexFile fs parse cfg idx filePath = (idx, 0) := by
  unfold CodeIndexer.indexFile
  rw [hstat]
  dsimp only
  split
  · rfl
  · rw [hread]
    dsimp only
    rw [hstored]
    dsimp only
    rw [if_pos hhash]

/-- C7 witness: re-indexing the unchanged fixture file is a no-op with no
parse. -/
theorem c7_unchanged_file_skips_parse_witness :
    fixtureFs "a.ts".data = some fixtureView ∧
    fixtureStored.hash = CodeIndexer.hashString fixtureView.mtime "abc".data.length ∧
    CodeIndexer.indexFile fixtureFs fixtureParse fixtureCfg fixtureIdx "a.ts".data =
      (fixtureIdx, 0) :=
  ⟨by decide, by decide,
   c7_unchanged_file_skips_parse fixtureFs fixtureParse fixtureCfg fixtureIdx "a.ts".data
     fixtureView "abc".data fixtureStored (by decide) (by decide) (by decide) (by decide)⟩

/-- C10: if statting, reading or parsing the file fails, `indexFile` returns
normally and the index — in particular both map entries for that path — is
exactly what it was before the call. -/
theorem c10_indexFile_error_atomic (fs : Str → Option FileView)
    (parse : Str → Option ParsedFile) (cfg : CodeIndexer.IndexerConfig)
    (idx : CodeIndexer.Index) (filePath : Str)
    (h : fs filePath = none ∨
      (∃ stats, fs filePath = some stats ∧ stats.content = none) ∨
      parse filePath = none) :
    (CodeIndexer.indexFile fs parse cfg idx filePath).1 = idx := by
  unfold CodeIndexer.indexFile
  rcases h with h | ⟨stats, hs, hc⟩ | hp
  · rw [h]
  · rw [hs]
    dsimp only
    split
    · rfl
    · rw [hc]
  · cases hfs : fs filePath with
    | none => rfl
    | some stats =>
      dsimp only
      split
      · rfl
      · cases hc : stats.content with
        | none => rfl
        | some content =>
          dsimp only
          cases hl : CodeIndexer.lookupA idx.files filePath with
          | none =>
            dsimp only
            rw [hp]
          | some stored =>
            dsimp only
            split
            · rfl
            · rw [hp]

/-- C10 witness: error atomicity applied at a concrete unreadable file. -/
theorem c10_indexFile_error_atomic_witness :
    fixtureViewUnreadable.content = none ∧
    (CodeIndexer.indexFile fixtureFsUnreadable fixtureParse fixtureCfg fixtureIdx
      "a.ts".data).1 = fixtureIdx :=
  ⟨rfl,
   c10_indexFile_error_atomic fixtureFsUnreadable fixtureParse fixtureCfg fixtureIdx
     "a.ts".data (Or.inr (Or.inl ⟨fixtureViewUnreadable, by decide, rfl⟩))⟩

namespace CodeIndexer

/-- `Map.set` commutes with projecting records to their element lists. -/
theorem map_setA (l : List (Str × FileIndex)) (k : Str) (v : FileIndex) :
    (setA l k v).map (fun pr => (pr.1, pr.2.elements)) =
      setA (l.map (fun pr => (pr.1, pr.2.elements))) k v.elements := by
  induction l with
  | nil => rfl
  | cons hd rest ih =>
    unfold setA
    by_cases h : hd.1 = k
    · simp [h]
    · simp [h, ih]

/-- `Map.delete` commutes with projecting records to their element lists. -/
theorem map_delA (l : List (Str × FileIndex)) (k : Str) :
    (delA l k).map (fun pr => (pr.1, pr.2.elements)) =
      delA (l.map (fun pr => (pr.1, pr.2.elements))) k := by
  induction l with
  | nil => rfl
  | cons hd rest ih =>
    unfold delA
    by_cases h : hd.1 = k
    · simp [h]
    · simp [h, ih]

/-- `Map.get` on the projected map is the projected `Map.get`. -/
theorem lookupA_map (l : List (Str × FileIndex)) (p : Str) :
    lookupA (l.map (fun pr => (pr.1, pr.2.elements))) p =
      (lookupA l p).map (fun stored => stored.elements) := by
  induction l with
  | nil => rfl
  | cons hd rest ih =>
    unfold lookupA
    by_cases h : hd.1 = p
    · simp [h]
    · simp [h, ih]

/-- `indexFile` either leaves the index unchanged or stores one FileRecord
together with exactly its Declaration list under the same path. -/
theorem indexFile_shape (fs : Str → Option FileView) (parse : Str → Option ParsedFile)
    (cfg : IndexerConfig) (idx : Index) (filePath : Str) :
    (indexFile fs parse cfg idx filePath).1 = idx ∨
    ∃ stored : FileIndex, (indexFile fs parse cfg idx filePath).1 =
      { files := setA idx.files filePath stored
        elements := setA idx.elements filePath stored.elements } := by
  unfold indexFile
  cases hfs : fs filePath with
  | none => exact Or.inl rfl
  | some stats =>
    dsimp only
    split
    · exact Or.inl rfl
    · cases hc : stats.content with
      | none => exact Or.inl rfl
      | some content =>
        dsimp only
        cases hl : lookupA idx.files filePath with
        | none =>
          dsimp only
          cases hp : parse filePath with
          | none => exact Or.inl rfl
          | some parsedFile => exact Or.inr ⟨_, rfl⟩
        | some stored =>
          dsimp only
          split
          · exact Or.inl rfl
          · cases hp : parse filePath with
            | none => exact Or.inl rfl
            | some parsedFile => exact Or.inr ⟨_, rfl⟩

/-- Every index operation preserves the synchronisation invariant. -/
theorem syncInv_applyOp {idx : Index} (h : SyncInv idx) (op : IndexOp) :
    SyncInv (applyOp idx op) := by
  cases op with
  | indexOp fs parse cfg filePath =>
    rcases indexFile_shape fs parse cfg idx filePath with heq | ⟨stored, heq⟩
    · show SyncInv (indexFile fs parse cfg idx filePath).1
      rw [heq]
      exact h
    · show SyncInv (indexFile fs parse cfg idx filePath).1
      unfold SyncInv
      rw [heq]
      show setA idx.elements filePath stored.elements = _
      rw [h, map_setA]
  | removeOp filePath =>
    show SyncInv (removeFile idx filePath)
    unfold removeFile SyncInv
    show delA idx.elements filePath = _
    rw [h, map_delA]

/-- Folding any operation sequence from an invariant-satisfying index keeps
the invariant. -/
theorem syncInv_foldl (ops : List IndexOp) :
    ∀ idx : Index, SyncInv idx → SyncInv (ops.foldl applyOp idx) := by
  induction ops with
  | nil => exact fun idx h => h
  | cons op rest ih => exact fun idx h => ih (applyOp idx op) (syncInv_applyOp h op)

/-- The statistics fold accumulates the sum of per-record element counts. -/
theorem statsFold_fst (l : List (Str × FileIndex)) :
    ∀ (b : Nat) (m : List (Str × Nat)),
      (l.foldl (fun acc pr =>
        (acc.1 + pr.2.elements.length, bumpLang acc.2 pr.2.language pr.2.elements.length))
        (b, m)).1 = b + (l.map (fun pr => pr.2.elements.length)).sum := by
  induction l with
  | nil => intro b m; simp
  | cons hd rest ih =>
    intro b m
    simp only [List.foldl_cons, List.map_cons, List.sum_cons, ih]
    omega

/-- `getStatistics` counts exactly the summed record sizes. -/
theorem getStatistics_totalElements (idx : Index) :
    (getStatistics idx).totalElements =
      (idx.files.map (fun pr => pr.2.elements.length)).sum := by
  unfold getStatistics
  dsimp only
  rw [statsFold_fst]
  omega

/-- The element-collection fold is flattening. -/
theorem foldl_append_flatten (l : List (Str × List CodeElement)) :
    ∀ acc : List CodeElement,
      l.foldl (fun allElements pr => allElements ++ pr.2) acc =
        acc ++ (l.map Prod.snd).flatten := by
  induction l with
  | nil => intro acc; simp
  | cons hd rest ih =>
    intro acc
    simp only [List.foldl_cons, List.map_cons, List.flatten_cons, ih]
    rw [List.append_assoc]

/-- `getAllElements` flattens the values of the `elements` map. -/
theorem getAllElements_eq (idx : Index) :
    getAllElements idx = (idx.elements.map Prod.snd).flatten := by
  unfold getAllElements
  rw [foldl_append_flatten]
  rfl

end CodeIndexer

/-- C8: after any operation sequence from the empty index, the `files` and
`elements` maps share their key lists, every stored FileRecord's Declaration
list is exactly the derived map's entry for its path, and the statistics
total equals the length of the flattened element list. -/
theorem c8_index_sync_invariant (ops : List CodeIndexer.IndexOp) :
    ((ops.foldl CodeIndexer.applyOp CodeIndexer.emptyIndex).files.map Prod.fst =
      (ops.foldl CodeIndexer.applyOp CodeIndexer.emptyIndex).elements.map Prod.fst) ∧
    (∀ (p : Str) (stored : FileIndex),
      CodeIndexer.lookupA (ops.foldl CodeIndexer.applyOp CodeIndexer.emptyIndex).files p =
        some stored →
      CodeIndexer.lookupA (ops.foldl CodeIndexer.applyOp CodeIndexer.emptyIndex).elements p =
        some stored.elements) ∧
    (CodeIndexer.getStatistics (ops.foldl CodeIndexer.applyOp CodeIndexer.emptyIndex)).totalElements =
      (CodeIndexer.getAllElements (ops.foldl CodeIndexer.applyOp CodeIndexer.emptyIndex)).length := by
  have hInv : CodeIndexer.SyncInv (ops.foldl CodeIndexer.applyOp CodeIndexer.emptyIndex) :=
    CodeIndexer.syncInv_foldl ops CodeIndexer.emptyIndex rfl
  refine ⟨?_, ?_, ?_⟩
  · rw [hInv, List.map_map]
    rfl
  · intro p stored h
    rw [hInv, CodeIndexer.lookupA_map, h]
    rfl
  · rw [CodeIndexer.getStatistics_totalElements, CodeIndexer.getAllElements_eq, hInv,
      List.length_flatten, List.map_map, List.map_map]
    rfl

/-- C8 witness: the invariant applied to a concrete one-operation history,
with the stored-record hypothesis discharged by evaluation. -/
theorem c8_index_sync_invariant_witness :
    CodeIndexer.lookupA (fixtureOps.foldl CodeIndexer.applyOp CodeIndexer.emptyIndex).files
      "a.ts".data = some fixtureStored ∧
    CodeIndexer.lookupA (fixtureOps.foldl CodeIndexer.applyOp CodeIndexer.emptyIndex).elements
      "a.ts".data = some fixtureStored.elements ∧
    (CodeIndexer.getStatistics
      (fixtureOps.foldl CodeIndexer.applyOp CodeIndexer.emptyIndex)).totalElements =
    (CodeIndexer.getAllElements
      (fixtureOps.foldl CodeIndexer.applyOp CodeIndexer.emptyIndex)).length :=
  ⟨by decide,
   (c8_index_sync_invariant fixtureOps).2.1 "a.ts".data fixtureStored (by decide),
   (c8_index_sync_invariant fixtureOps).2.2⟩

/-- C9 (amended): `indexWorkspace` never surfaces a failure to its caller —
for every configuration, root (including a root whose `readdirSync` throws
because it does not exist or is not readable), filesystem and parser state,
the call completes with `Except.ok`; traversal failures are absorbed inside
`findCodeFiles` (the failing directory merely contributes no further files)
and per-file failures are absorbed inside `indexFile`. -/
theorem c9_index_workspace_total (cfg : CodeIndexer.IndexerConfig) (rootPath : Str)
    (root : FsNode) (fs : Str → Option FileView) (parse : Str → Option ParsedFile)
    (idx : CodeIndexer.Index) :
    ∃ out, CodeIndexer.indexWorkspace cfg rootPath root fs parse idx = Except.ok out :=
  ⟨_, rfl⟩

/-- C9 counterexample: for a workspace root whose directory listing cannot be
read (a nonexistent or unreadable root), `indexWorkspace` does not surface
any failure — it returns `Except.ok` with the index untouched, contradicting
the claim that this condition is propagated to the caller. -/
theorem c9_root_failure_counterexample :
    CodeIndexer.findCodeFiles fixtureCfg "root".data (FsNode.dir true none) = [] ∧
    CodeIndexer.indexWorkspace fixtureCfg "root".data (FsNode.dir true none) fixtureFs
      fixtureParse CodeIndexer.emptyIndex = Except.ok CodeIndexer.emptyIndex ∧
    ∀ e : Str, CodeIndexer.indexWorkspace fixtureCfg "root".data (FsNode.dir true none) fixtureFs
      fixtureParse CodeIndexer.emptyIndex ≠ Except.error e :=
  ⟨rfl, rfl, fun _ h => Except.noConfusion h⟩
